import Mathlib

/-!
# SwipeLearn — spaced-repetition engine, shallow embedding

Shallow embedding of the spaced-repetition engine of the `swipelearn` Go
service (`api/internal/services/flashcard.go`, backed by the repository in
`api/internal/repositories`), covering the SM-2 review scheduler
(`ReviewFlashcard`), the ownership-guarded variant
(`ReviewFlashcardWithOwnership`), the due-card selector (`GetDueCards`) and
card creation (`Create`).

Modelling conventions:
* `uuid.UUID` is modelled as `Nat`, with `uuid.Nil` as `0`.
* `time.Time` and `time.Duration` are modelled as `Int` nanoseconds
  (`time.Hour = 3600 * 10^9 ns` as in Go); `Int` ignores the (irrelevant
  here) 64-bit wrap of `time.Duration`.
* Go `float64` arithmetic on ease factors is modelled exactly over `ℚ`.
* Every `time.Now()` inside one service call, and the SQL `NOW()` of the
  backing update, is modelled as the single instant `now` passed to the
  call: a call is treated as atomic in time.
* The SQL repository is modelled as an in-memory list of cards, and each
  repository call made by the service layer is recorded in an event trace,
  so that fetch/update ordering properties are observable. Logging is not
  modelled.
* Field names follow the Go model `models.Flashcard`
  (`UpdateFlashcardRequest` is taken with the full SM-2 field set used by
  `services/flashcard.go` and `repositories.FlashcardRepository.Update`).
-/

namespace SwipeLearn

/-- Timestamps and durations in nanoseconds, as in Go `time`. -/
abbrev Time := Int

/-- Go `time.Hour` in nanoseconds: `time.Hour = 3600 * 10^9`. -/
def nsPerHour : Int := 3600 * 1000000000

/-- Go `math.Round`: rounds half away from zero.
`math.Round(x) = floor(x + 0.5)` for `x ≥ 0` and `ceil(x - 0.5)` otherwise;
the Go code converts the (integral) result with `int(...)`, which is exact. -/
def goRound (x : ℚ) : Int :=
  if 0 ≤ x then (x + 1/2).floor else (x - 1/2).ceil

/-- Go `math.Max` on the (non-NaN, non-infinite) values arising here:
returns the larger argument. -/
def goMax (a b : ℚ) : ℚ :=
  if a ≤ b then b else a

/-- Go struct `models.Flashcard` (`api/internal/models/flashcard.go`). -/
structure Flashcard where
  id : Nat
  userId : Nat
  front : String
  back : String
  deckId : Nat
  difficulty : ℚ
  interval : Int
  easeFactor : ℚ
  reviewCount : Int
  lastReview : Option Time
  nextReview : Option Time
  createdAt : Time
  updatedAt : Time
deriving DecidableEq, Repr

/-- Go struct `models.CreateFlashcardRequest`. -/
structure CreateFlashcardRequest where
  front : String
  back : String
  userId : Nat
  deckId : Nat
deriving DecidableEq, Repr

/-- Go struct `models.UpdateFlashcardRequest`, with the SM-2 fields
(`Difficulty`, `Interval`, `EaseFactor`, `ReviewCount`, `LastReview`,
`NextReview`) that `services/flashcard.go` sets and
`repositories.FlashcardRepository.Update` applies. A `none` field models a
nil pointer (field left unchanged). -/
structure UpdateFlashcardRequest where
  front : Option String
  back : Option String
  difficulty : Option ℚ
  interval : Option Int
  easeFactor : Option ℚ
  reviewCount : Option Int
  lastReview : Option Time
  nextReview : Option Time
deriving DecidableEq, Repr

/-- Error taxonomy of the service layer; each constructor corresponds to one
`fmt.Errorf` site of `services/flashcard.go` (resp. the repository's
"flashcard not found"). -/
inductive ServiceError where
  | invalidQuality (q : Int)
  | cardNotFound
  | unauthorized
  | missingDeckId
  | missingUserId
deriving DecidableEq, Repr

deriving instance DecidableEq for Except

/-- One repository call made by the service layer, for observing
fetch/update ordering. -/
inductive RepoEvent where
  | getByID (id : Nat)
  | update (id : Nat)
deriving DecidableEq, Repr

/-- The card store (`flashcards` table) as a list of rows. -/
abbrev Store := List Flashcard

/-- Repository `FlashcardRepository.GetByID`: `SELECT ... WHERE id = $1`. -/
def storeGetByID (store : Store) (id : Nat) : Option Flashcard :=
  store.find? (fun c => c.id == id)

/-- Repository `FlashcardRepository.GetByUser`: `SELECT ... WHERE user_id = $1`. -/
def storeGetByUser (store : Store) (userId : Nat) : List Flashcard :=
  store.filter (fun c => c.userId == userId)

/-- The field-by-field application of an `UpdateFlashcardRequest` performed
by `FlashcardRepository.Update` ("Update fields individually": each non-nil
pointer overwrites the stored field). -/
def applyUpdate (card : Flashcard) (u : UpdateFlashcardRequest) : Flashcard :=
  let c1 := match u.front with | some v => { card with front := v } | none => card
  let c2 := match u.back with | some v => { c1 with back := v } | none => c1
  let c3 := match u.difficulty with | some v => { c2 with difficulty := v } | none => c2
  let c4 := match u.interval with | some v => { c3 with interval := v } | none => c3
  let c5 := match u.easeFactor with | some v => { c4 with easeFactor := v } | none => c4
  let c6 := match u.reviewCount with | some v => { c5 with reviewCount := v } | none => c5
  let c7 := match u.lastReview with | some v => { c6 with lastReview := some v } | none => c6
  match u.nextReview with | some v => { c7 with nextReview := some v } | none => c7

/-- Repository `FlashcardRepository.Update`: fetch the row, apply the request field by
field, and write the full row back with `updated_at = NOW()` (the instant
`dbNow`), returning the updated row. -/
def storeUpdate (store : Store) (id : Nat) (u : UpdateFlashcardRequest) (dbNow : Time) :
    Except ServiceError (Flashcard × Store) :=
  match storeGetByID store id with
  | none => Except.error ServiceError.cardNotFound
  | some card =>
      let c2 := { applyUpdate card u with updatedAt := dbNow }
      Except.ok (c2, store.map (fun c => if c.id == id then c2 else c))

/-- Repository `FlashcardRepository.Create`: insert the row with
`created_at = updated_at = NOW()` and return it. -/
def storeCreate (store : Store) (card : Flashcard) (dbNow : Time) : Flashcard × Store :=
  let c2 := { card with createdAt := dbNow, updatedAt := dbNow }
  (c2, store ++ [c2])

/-- Service `FlashcardService.Create`: validates that deck and user ids are non-nil,
builds the initial card (`Difficulty = 2.5`, `Interval = 1`,
`EaseFactor = 2.5`, `ReviewCount = 0`) and persists it. `newId` models the
fresh `uuid.New()`. -/
def Create (store : Store) (req : CreateFlashcardRequest) (newId : Nat) (now : Time) :
    Except ServiceError Flashcard × Store :=
  if req.deckId == 0 then (Except.error ServiceError.missingDeckId, store)
  else if req.userId == 0 then (Except.error ServiceError.missingUserId, store)
  else
    let card : Flashcard :=
      { id := newId
        userId := req.userId
        front := req.front
        back := req.back
        deckId := req.deckId
        difficulty := 5/2
        interval := 1
        easeFactor := 5/2
        reviewCount := 0
        lastReview := none
        nextReview := none
        createdAt := now
        updatedAt := now }
    let r := storeCreate store card now
    (Except.ok r.1, r.2)

/-- Service `FlashcardService.ReviewFlashcard`, line by line: validate
`quality ∈ [0,5]`, fetch the card, recompute the ease factor with the SM-2
formula `EF + (0.1 - (5-q) * (0.08 + (5-q) * 0.02))` clamped by
`math.Max(1.3, ·)`, branch on `q < 3`, then persist every SM-2 field
through `FlashcardRepository.Update`. Returns the result, the new store
state, and the trace of repository calls made. -/
def ReviewFlashcard (store : Store) (id : Nat) (quality : Int) (now : Time) :
    Except ServiceError Flashcard × Store × List RepoEvent :=
  if quality < 0 ∨ quality > 5 then
    (Except.error (ServiceError.invalidQuality quality), store, [])
  else
    match storeGetByID store id with
    | none => (Except.error ServiceError.cardNotFound, store, [RepoEvent.getByID id])
    | some card =>
        let q : ℚ := (quality : ℚ)
        let newEaseFactor : ℚ :=
          goMax (13/10) (card.easeFactor + (1/10 - (5 - q) * (8/100 + (5 - q) * (2/100))))
        let step : Int × Int × Time :=
          if q < 3 then
            (1, 0, now + nsPerHour * 24)
          else
            let newRepetitions := card.reviewCount + 1
            let newInterval : Int :=
              if newRepetitions = 1 then 1
              else if newRepetitions = 2 then 6
              else goRound ((card.interval : ℚ) * newEaseFactor)
            (newInterval, newRepetitions, now + nsPerHour * 24 * newInterval)
        let updateReq : UpdateFlashcardRequest :=
          { front := none
            back := none
            difficulty := some newEaseFactor
            interval := some step.1
            easeFactor := some newEaseFactor
            reviewCount := some step.2.1
            lastReview := some now
            nextReview := some step.2.2 }
        match storeUpdate store id updateReq now with
        | Except.error e =>
            (Except.error e, store, [RepoEvent.getByID id, RepoEvent.update id])
        | Except.ok r =>
            (Except.ok r.1, r.2, [RepoEvent.getByID id, RepoEvent.update id])

/-- Service `FlashcardService.ReviewFlashcardWithOwnership`: fetch the card, compare
`card.UserID` with the requester, then delegate to `ReviewFlashcard`
(which fetches the card again). -/
def ReviewFlashcardWithOwnership (store : Store) (id : Nat) (userId : Nat)
    (quality : Int) (now : Time) :
    Except ServiceError Flashcard × Store × List RepoEvent :=
  match storeGetByID store id with
  | none => (Except.error ServiceError.cardNotFound, store, [RepoEvent.getByID id])
  | some card =>
      if card.userId ≠ userId then
        (Except.error ServiceError.unauthorized, store, [RepoEvent.getByID id])
      else
        let r := ReviewFlashcard store id quality now
        (r.1, r.2.1, RepoEvent.getByID id :: r.2.2)

/-- Service `FlashcardService.GetDueCards`: fetch the user's cards and keep those
with `NextReview == nil || NextReview.Before(now)` (`Before` is a strict
comparison). -/
def GetDueCards (store : Store) (userId : Nat) (now : Time) : List Flashcard :=
  (storeGetByUser store userId).filter (fun c =>
    match c.nextReview with
    | none => true
    | some t => decide (t < now))

/-- The due predicate as the specification words it: a card is due at `t`
iff `nextReviewAt` is null or `nextReviewAt <= t` (inclusive boundary).
Stated from the spec, for comparison against `GetDueCards`. -/
def specDue (c : Flashcard) (t : Time) : Bool :=
  match c.nextReview with
  | none => true
  | some r => decide (r ≤ t)

/-! ### Derived characterizations of one review step

The following definitions name the intermediate values `ReviewFlashcard`
computes (`newEaseFactor`, the `(newInterval, newRepetitions, nextReview)`
triple, and the stored row); `reviewFlashcard_ok_eq` below proves that
`ReviewFlashcard` produces exactly these values. -/

/-- The new ease factor of `ReviewFlashcard`:
`math.Max(1.3, EF + (0.1 - (5-q) * (0.08 + (5-q) * 0.02)))`. -/
def newEase (ef : ℚ) (quality : Int) : ℚ :=
  goMax (13/10)
    (ef + (1/10 - (5 - (quality : ℚ)) * (8/100 + (5 - (quality : ℚ)) * (2/100))))

/-- The `(newInterval, newRepetitions, nextReview)` triple computed by the
outcome branch of `ReviewFlashcard`. -/
def reviewStep (card : Flashcard) (quality : Int) (now : Time) : Int × Int × Time :=
  if (quality : ℚ) < 3 then
    (1, 0, now + nsPerHour * 24)
  else
    let newRepetitions := card.reviewCount + 1
    let newInterval : Int :=
      if newRepetitions = 1 then 1
      else if newRepetitions = 2 then 6
      else goRound ((card.interval : ℚ) * newEase card.easeFactor quality)
    (newInterval, newRepetitions, now + nsPerHour * 24 * newInterval)

/-- The full updated row a successful `ReviewFlashcard` call stores and
returns. -/
def reviewedCard (card : Flashcard) (quality : Int) (now : Time) : Flashcard :=
  { card with
    difficulty := newEase card.easeFactor quality
    interval := (reviewStep card quality now).1
    easeFactor := newEase card.easeFactor quality
    reviewCount := (reviewStep card quality now).2.1
    lastReview := some now
    nextReview := some (reviewStep card quality now).2.2
    updatedAt := now }

/-! ### Concrete inputs used by witnesses and counterexamples -/

/-- A freshly created card owned by user `7`, as `Create` builds it. -/
def cardW : Flashcard :=
  { id := 5, userId := 7, front := "f", back := "b", deckId := 1,
    difficulty := 5/2, interval := 1, easeFactor := 5/2, reviewCount := 0,
    lastReview := none, nextReview := none, createdAt := 0, updatedAt := 0 }

/-- A mature card: two successful repetitions behind it, six-day interval. -/
def cardM : Flashcard :=
  { cardW with id := 9, interval := 6, reviewCount := 2 }

/-- A card whose next review is scheduled exactly at instant `100`. -/
def cardB : Flashcard :=
  { cardW with id := 11, nextReview := some 100 }

/-- The creation request that produces `cardW`. -/
def reqW : CreateFlashcardRequest :=
  { front := "f", back := "b", userId := 7, deckId := 1 }

/-! ## Helper lemmas -/

theorem goMax_left_le (a b : ℚ) : a ≤ goMax a b := by
  unfold goMax
  split
  · assumption
  · exact le_refl a

/-- An out-of-range quality fails fast: error result, no repository call,
store unchanged. -/
theorem reviewFlashcard_invalid_eq (store : Store) (id : Nat) (quality : Int)
    (now : Time) (h : quality < 0 ∨ 5 < quality) :
    ReviewFlashcard store id quality now =
      (Except.error (ServiceError.invalidQuality quality), store, []) := by
  unfold ReviewFlashcard
  rw [if_pos h]

/-- A valid quality against an absent card id yields `cardNotFound` after a
single fetch, with no store change. -/
theorem reviewFlashcard_notfound_eq (store : Store) (id : Nat) (quality : Int)
    (now : Time) (hq : ¬(quality < 0 ∨ 5 < quality))
    (hget : storeGetByID store id = none) :
    ReviewFlashcard store id quality now =
      (Except.error ServiceError.cardNotFound, store, [RepoEvent.getByID id]) := by
  unfold ReviewFlashcard
  rw [if_neg hq, hget]

/-- Master characterization: a valid review of a present card returns
`reviewedCard`, stores it at the card's id, and performs exactly one fetch
followed by one update. -/
theorem reviewFlashcard_ok_eq (store : Store) (id : Nat) (quality : Int)
    (now : Time) (card : Flashcard) (hq : ¬(quality < 0 ∨ 5 < quality))
    (hget : storeGetByID store id = some card) :
    ReviewFlashcard store id quality now =
      (Except.ok (reviewedCard card quality now),
       store.map (fun c => if c.id == id then reviewedCard card quality now else c),
       [RepoEvent.getByID id, RepoEvent.update id]) := by
  unfold ReviewFlashcard storeUpdate
  rw [if_neg hq, hget]
  by_cases h3 : ((quality : ℚ)) < 3
  · simp [reviewedCard, reviewStep, newEase, applyUpdate, h3]
  · simp [reviewedCard, reviewStep, newEase, applyUpdate, h3]

/-- C1: for every card and every integer quality in `[0,5]`, `ReviewFlashcard`
recomputes the ease factor as
`easeFactor + (0.1 - (5 - quality) * (0.08 + (5 - quality) * 0.02))` from the
pre-review ease factor and clamps it to at least `1.3`; the recomputation is
applied regardless of the outcome branch, so the resulting `easeFactor` is
always at least `1.3`. -/
theorem review_easeFactor_formula_and_floor (store : Store) (id : Nat)
    (quality : Int) (now : Time) (card : Flashcard)
    (hq0 : 0 ≤ quality) (hq5 : quality ≤ 5)
    (hget : storeGetByID store id = some card) :
    ∃ c2, (ReviewFlashcard store id quality now).1 = Except.ok c2 ∧
      c2.easeFactor =
        goMax (13/10) (card.easeFactor +
          (1/10 - (5 - (quality : ℚ)) * (8/100 + (5 - (quality : ℚ)) * (2/100)))) ∧
      (13/10 : ℚ) ≤ c2.easeFactor := by
  have hq : ¬(quality < 0 ∨ 5 < quality) := by omega
  refine ⟨reviewedCard card quality now, ?_, ?_, ?_⟩
  · rw [reviewFlashcard_ok_eq store id quality now card hq hget]
  · rfl
  · exact goMax_left_le _ _

theorem review_easeFactor_formula_and_floor_witness :
    ∃ c2, (ReviewFlashcard [cardW] 5 5 0).1 = Except.ok c2 ∧
      c2.easeFactor =
        goMax (13/10) (cardW.easeFactor +
          (1/10 - (5 - ((5 : Int) : ℚ)) * (8/100 + (5 - ((5 : Int) : ℚ)) * (2/100)))) ∧
      (13/10 : ℚ) ≤ c2.easeFactor :=
  review_easeFactor_formula_and_floor [cardW] 5 5 0 cardW (by decide) (by decide) rfl

/-- C2: for every card and every quality in `[0,2]`, the review resets
`reviewCount` to `0`, `interval` to `1`, and schedules the next review
exactly one day after `now`. -/
theorem review_failure_resets (store : Store) (id : Nat) (quality : Int)
    (now : Time) (card : Flashcard)
    (hq0 : 0 ≤ quality) (hq2 : quality ≤ 2)
    (hget : storeGetByID store id = some card) :
    ∃ c2, (ReviewFlashcard store id quality now).1 = Except.ok c2 ∧
      c2.reviewCount = 0 ∧ c2.interval = 1 ∧
      c2.nextReview = some (now + nsPerHour * 24) := by
  have hq : ¬(quality < 0 ∨ 5 < quality) := by omega
  have h3 : ((quality : ℚ)) < 3 := by
    have h2 : ((quality : ℚ)) ≤ 2 := by exact_mod_cast hq2
    linarith
  refine ⟨reviewedCard card quality now, ?_, ?_, ?_, ?_⟩
  · rw [reviewFlashcard_ok_eq store id quality now card hq hget]
  · simp [reviewedCard, reviewStep, h3]
  · simp [reviewedCard, reviewStep, h3]
  · simp [reviewedCard, reviewStep, h3]

theorem review_failure_resets_witness :
    ∃ c2, (ReviewFlashcard [cardM] 9 2 0).1 = Except.ok c2 ∧
      c2.reviewCount = 0 ∧ c2.interval = 1 ∧
      c2.nextReview = some (0 + nsPerHour * 24) :=
  review_failure_resets [cardM] 9 2 0 cardM (by decide) (by decide) rfl

/-- C3: for every card and every quality in `[3,5]`, the review increments
`reviewCount` by one and sets `interval` as a function of the new count
(`1` for count `1`, `6` for count `2`, `round(previousInterval * newEase)`
for count at least `3`), scheduling the next review that many days after
`now`. -/
theorem review_success_schedule (store : Store) (id : Nat) (quality : Int)
    (now : Time) (card : Flashcard)
    (hq3 : 3 ≤ quality) (hq5 : quality ≤ 5)
    (hget : storeGetByID store id = some card) :
    ∃ c2, (ReviewFlashcard store id quality now).1 = Except.ok c2 ∧
      c2.reviewCount = card.reviewCount + 1 ∧
      (card.reviewCount + 1 = 1 → c2.interval = 1) ∧
      (card.reviewCount + 1 = 2 → c2.interval = 6) ∧
      (3 ≤ card.reviewCount + 1 →
        c2.interval = goRound ((card.interval : ℚ) * c2.easeFactor)) ∧
      c2.nextReview = some (now + nsPerHour * 24 * c2.interval) := by
  have hq : ¬(quality < 0 ∨ 5 < quality) := by omega
  have h3 : ¬(((quality : ℚ)) < 3) := by
    have hc : (3 : ℚ) ≤ ((quality : ℚ)) := by exact_mod_cast hq3
    linarith
  refine ⟨reviewedCard card quality now, ?_, ?_, ?_, ?_, ?_, ?_⟩
  · rw [reviewFlashcard_ok_eq store id quality now card hq hget]
  · simp [reviewedCard, reviewStep, h3]
  · intro h1; simp [reviewedCard, reviewStep, h3, h1]
  · intro h2; simp [reviewedCard, reviewStep, h3, h2]
  · intro hge
    have h1 : ¬(card.reviewCount + 1 = 1) := by omega
    have h2 : ¬(card.reviewCount + 1 = 2) := by omega
    simp [reviewedCard, reviewStep, h3, h1, h2]
  · simp [reviewedCard, reviewStep, h3]

theorem review_success_schedule_witness :
    ∃ c2, (ReviewFlashcard [cardM] 9 4 0).1 = Except.ok c2 ∧
      c2.reviewCount = cardM.reviewCount + 1 ∧
      (cardM.reviewCount + 1 = 1 → c2.interval = 1) ∧
      (cardM.reviewCount + 1 = 2 → c2.interval = 6) ∧
      (3 ≤ cardM.reviewCount + 1 →
        c2.interval = goRound ((cardM.interval : ℚ) * c2.easeFactor)) ∧
      c2.nextReview = some (0 + nsPerHour * 24 * c2.interval) :=
  review_success_schedule [cardM] 9 4 0 cardM (by decide) (by decide) rfl

/-- C6: for every card, every quality in `[0,5]` and every review instant,
the returned card satisfies `nextReview = lastReview + interval` days, on
both outcome branches. -/
theorem review_next_eq_last_plus_interval (store : Store) (id : Nat)
    (quality : Int) (now : Time) (card : Flashcard)
    (hq0 : 0 ≤ quality) (hq5 : quality ≤ 5)
    (hget : storeGetByID store id = some card) :
    ∃ c2, (ReviewFlashcard store id quality now).1 = Except.ok c2 ∧
      c2.lastReview = some now ∧
      c2.nextReview = some (now + nsPerHour * 24 * c2.interval) := by
  have hq : ¬(quality < 0 ∨ 5 < quality) := by omega
  refine ⟨reviewedCard card quality now, ?_, ?_, ?_⟩
  · rw [reviewFlashcard_ok_eq store id quality now card hq hget]
  · rfl
  · by_cases h3 : ((quality : ℚ)) < 3
    · simp [reviewedCard, reviewStep, h3]
    · simp [reviewedCard, reviewStep, h3]

theorem review_next_eq_last_plus_interval_witness :
    ∃ c2, (ReviewFlashcard [cardW] 5 0 7).1 = Except.ok c2 ∧
      c2.lastReview = some 7 ∧
      c2.nextReview = some (7 + nsPerHour * 24 * c2.interval) :=
  review_next_eq_last_plus_interval [cardW] 5 0 7 cardW (by decide) (by decide) rfl

/-- C4: for every integer quality outside `[0,5]`, `ReviewFlashcard` fails
with the invalid-quality error and performs no mutation: the store is
unchanged, no repository call happens, and no card is returned. -/
theorem review_invalid_quality_no_mutation (store : Store) (id : Nat)
    (quality : Int) (now : Time) (h : quality < 0 ∨ 5 < quality) :
    ReviewFlashcard store id quality now =
      (Except.error (ServiceError.invalidQuality quality), store, []) :=
  reviewFlashcard_invalid_eq store id quality now h

theorem review_invalid_quality_no_mutation_witness :
    ReviewFlashcard [cardW] 5 6 0 =
      (Except.error (ServiceError.invalidQuality 6), [cardW], []) :=
  review_invalid_quality_no_mutation [cardW] 5 6 0 (by decide)

/-- C9: the quality range is validated before the store is consulted: for
any id, one whose card does not exist included, an out-of-range quality
yields the invalid-quality error (never `cardNotFound`), with no repository
read or write and the store untouched. -/
theorem review_validates_quality_before_store (store : Store) (id : Nat)
    (quality : Int) (now : Time)
    (_hmissing : storeGetByID store id = none)
    (h : quality < 0 ∨ 5 < quality) :
    (ReviewFlashcard store id quality now).1 =
        Except.error (ServiceError.invalidQuality quality) ∧
      (ReviewFlashcard store id quality now).1 ≠
        Except.error ServiceError.cardNotFound ∧
      (ReviewFlashcard store id quality now).2.1 = store ∧
      (ReviewFlashcard store id quality now).2.2 = [] := by
  rw [reviewFlashcard_invalid_eq store id quality now h]
  refine ⟨rfl, ?_, rfl, rfl⟩
  simp

theorem review_validates_quality_before_store_witness :
    (ReviewFlashcard [] 5 7 0).1 = Except.error (ServiceError.invalidQuality 7) ∧
      (ReviewFlashcard [] 5 7 0).1 ≠ Except.error ServiceError.cardNotFound ∧
      (ReviewFlashcard [] 5 7 0).2.1 = [] ∧
      (ReviewFlashcard [] 5 7 0).2.2 = [] :=
  review_validates_quality_before_store [] 5 7 0 rfl (by decide)

/-- C5 counterexample: a card whose `nextReview` equals `now` exactly is due
per the specification's inclusive boundary, yet `GetDueCards` excludes it
(`time.Time.Before` is strict). -/
theorem getDueCards_boundary_cex :
    specDue cardB 100 = true ∧ GetDueCards [cardB] 7 100 = [] := by
  constructor
  · rfl
  · rfl

/-- C5 (amended): `GetDueCards` returns exactly the caller's cards that are
due under the strict boundary: `nextReview` null or strictly earlier than
`now`; a card whose `nextReview` equals `now` is excluded. -/
theorem getDueCards_mem_iff (store : Store) (userId : Nat) (now : Time)
    (c : Flashcard) :
    c ∈ GetDueCards store userId now ↔
      c ∈ store ∧ c.userId = userId ∧
        (c.nextReview = none ∨ ∃ t, c.nextReview = some t ∧ t < now) := by
  unfold GetDueCards storeGetByUser
  rw [List.mem_filter, List.mem_filter]
  constructor
  · rintro ⟨⟨hs, hu⟩, hd⟩
    refine ⟨hs, by simpa using hu, ?_⟩
    cases hnr : c.nextReview with
    | none => exact Or.inl rfl
    | some t =>
        right
        refine ⟨t, rfl, ?_⟩
        rw [hnr] at hd
        simpa using hd
  · rintro ⟨hs, hu, hd⟩
    refine ⟨⟨hs, by simpa using hu⟩, ?_⟩
    rcases hd with h | ⟨t, ht, hlt⟩
    · simp [h]
    · simp [ht, hlt]

/-- C7 counterexample: at a concrete valid input, the store after
`ReviewFlashcard` differs from the store before the call, so the call has a
side effect beyond its return value. -/
theorem review_mutates_store_cex :
    (ReviewFlashcard [cardW] 5 5 0).2.1 ≠ [cardW] := by
  rw [reviewFlashcard_ok_eq [cardW] 5 5 0 cardW (by decide) rfl]
  intro h
  have h2 : reviewedCard cardW 5 0 = cardW := by
    have h3 := congrArg (fun l => l.head?) h
    simp at h3
    exact h3 rfl
  have h4 := congrArg Flashcard.reviewCount h2
  have h5 : (reviewedCard cardW 5 0).reviewCount = 1 := by
    norm_num [reviewedCard, reviewStep, cardW]
  rw [h5] at h4
  exact absurd h4.symm (by norm_num [cardW])

/-- C7 (amended): `ReviewFlashcard` is a deterministic mapping of the
embedded state `(store, id, quality, now)`, but it does write the store: on
success the store is updated exactly at the reviewed id with the returned
card (all other rows unchanged), and on any error the store is unchanged. -/
theorem review_deterministic_store_effect (store : Store) (id : Nat)
    (quality : Int) (now : Time) :
    (∀ c2, (ReviewFlashcard store id quality now).1 = Except.ok c2 →
        (ReviewFlashcard store id quality now).2.1 =
          store.map (fun c => if c.id == id then c2 else c)) ∧
    (∀ e, (ReviewFlashcard store id quality now).1 = Except.error e →
        (ReviewFlashcard store id quality now).2.1 = store) := by
  by_cases hq : quality < 0 ∨ 5 < quality
  · rw [reviewFlashcard_invalid_eq store id quality now hq]
    constructor
    · intro c2 h
      simp at h
    · intro e h
      rfl
  · cases hget : storeGetByID store id with
    | none =>
        rw [reviewFlashcard_notfound_eq store id quality now hq hget]
        constructor
        · intro c2 h
          simp at h
        · intro e h
          rfl
    | some card =>
        rw [reviewFlashcard_ok_eq store id quality now card hq hget]
        constructor
        · intro c2 h
          simp only [Except.ok.injEq] at h
          subst h
          rfl
        · intro e h
          simp at h

theorem review_deterministic_store_effect_witness :
    (ReviewFlashcard [cardW] 5 5 0).2.1 =
      [cardW].map (fun c => if c.id == 5 then reviewedCard cardW 5 0 else c) :=
  (review_deterministic_store_effect [cardW] 5 5 0).1 (reviewedCard cardW 5 0)
    (by rw [reviewFlashcard_ok_eq [cardW] 5 5 0 cardW (by decide) rfl])

/-- When the requester owns the fetched card, the ownership wrapper
delegates to `ReviewFlashcard`, prefixing its own fetch to the trace. -/
theorem reviewWithOwnership_owner_eq (store : Store) (id : Nat) (userId : Nat)
    (quality : Int) (now : Time) (card : Flashcard)
    (hget : storeGetByID store id = some card) (hown : card.userId = userId) :
    ReviewFlashcardWithOwnership store id userId quality now =
      ((ReviewFlashcard store id quality now).1,
       (ReviewFlashcard store id quality now).2.1,
       RepoEvent.getByID id :: (ReviewFlashcard store id quality now).2.2) := by
  unfold ReviewFlashcardWithOwnership
  simp only [hget]
  rw [if_neg (by simp [hown])]

/-- When the requester does not own the fetched card, the wrapper stops
after the fetch: unauthorized error, store unchanged, no update. -/
theorem reviewWithOwnership_unauthorized_eq (store : Store) (id : Nat)
    (userId : Nat) (quality : Int) (now : Time) (card : Flashcard)
    (hget : storeGetByID store id = some card) (hown : card.userId ≠ userId) :
    ReviewFlashcardWithOwnership store id userId quality now =
      (Except.error ServiceError.unauthorized, store, [RepoEvent.getByID id]) := by
  unfold ReviewFlashcardWithOwnership
  simp only [hget]
  rw [if_pos hown]

/-- C8 counterexample: on a concrete owned card and valid quality, the
review-with-ownership call fetches the card twice (once for the guard, once
again inside `ReviewFlashcard`) before the single update, so the guarded
path does not run on a single fetched instance. -/
theorem reviewWithOwnership_double_fetch_cex :
    (ReviewFlashcardWithOwnership [cardW] 5 7 4 0).2.2 =
        [RepoEvent.getByID 5, RepoEvent.getByID 5, RepoEvent.update 5] ∧
      ((ReviewFlashcardWithOwnership [cardW] 5 7 4 0).2.2.count
        (RepoEvent.getByID 5)) ≠ 1 := by
  have h := reviewWithOwnership_owner_eq [cardW] 5 7 4 0 cardW rfl rfl
  rw [reviewFlashcard_ok_eq [cardW] 5 4 0 cardW (by decide) rfl] at h
  rw [h]
  constructor
  · rfl
  · decide

/-- C8 (amended): the ownership check runs exactly once, before the
scheduler and before any store write, on the first fetched instance — an
unauthorized requester causes no update and no store change — but the
delegated `ReviewFlashcard` fetches the card a second time from the store
between the check and the mutation, so every successful guarded review
performs two fetches followed by one update. -/
theorem reviewWithOwnership_guard_trace (store : Store) (id : Nat)
    (userId : Nat) (quality : Int) (now : Time) (card : Flashcard)
    (hget : storeGetByID store id = some card) (hown : card.userId = userId)
    (hq0 : 0 ≤ quality) (hq5 : quality ≤ 5) :
    (ReviewFlashcardWithOwnership store id userId quality now).2.2 =
        [RepoEvent.getByID id, RepoEvent.getByID id, RepoEvent.update id] ∧
      (∀ uid2, card.userId ≠ uid2 →
        ReviewFlashcardWithOwnership store id uid2 quality now =
          (Except.error ServiceError.unauthorized, store, [RepoEvent.getByID id])) := by
  have hq : ¬(quality < 0 ∨ 5 < quality) := by omega
  constructor
  · rw [reviewWithOwnership_owner_eq store id userId quality now card hget hown,
      reviewFlashcard_ok_eq store id quality now card hq hget]
  · intro uid2 h2
    exact reviewWithOwnership_unauthorized_eq store id uid2 quality now card hget h2

theorem reviewWithOwnership_guard_trace_witness :
    (ReviewFlashcardWithOwnership [cardW] 5 7 3 0).2.2 =
        [RepoEvent.getByID 5, RepoEvent.getByID 5, RepoEvent.update 5] ∧
      (∀ uid2, cardW.userId ≠ uid2 →
        ReviewFlashcardWithOwnership [cardW] 5 uid2 3 0 =
          (Except.error ServiceError.unauthorized, [cardW], [RepoEvent.getByID 5])) :=
  reviewWithOwnership_guard_trace [cardW] 5 7 3 0 cardW rfl rfl (by decide) (by decide)

/-- C10: the card's `difficulty` field mirrors `easeFactor`: `Create`
initializes both to `2.5`, and every successful `ReviewFlashcard` stores the
same newly computed ease factor in both fields. -/
theorem difficulty_mirrors_easeFactor :
    (∀ store req newId now c s2,
        Create store req newId now = (Except.ok c, s2) →
          c.difficulty = 5/2 ∧ c.easeFactor = 5/2) ∧
    (∀ store id quality now c2,
        (ReviewFlashcard store id quality now).1 = Except.ok c2 →
          c2.difficulty = c2.easeFactor) := by
  constructor
  · intro store req newId now c s2 h
    unfold Create storeCreate at h
    split at h
    · simp at h
    · split at h
      · simp at h
      · simp only [Prod.mk.injEq, Except.ok.injEq] at h
        obtain ⟨h1, _⟩ := h
        subst h1
        exact ⟨rfl, rfl⟩
  · intro store id quality now c2 h
    by_cases hq : quality < 0 ∨ 5 < quality
    · rw [reviewFlashcard_invalid_eq store id quality now hq] at h
      simp at h
    · cases hget : storeGetByID store id with
      | none =>
          rw [reviewFlashcard_notfound_eq store id quality now hq hget] at h
          simp at h
      | some card =>
          rw [reviewFlashcard_ok_eq store id quality now card hq hget] at h
          simp only [Except.ok.injEq] at h
          subst h
          rfl

theorem difficulty_mirrors_easeFactor_witness :
    (cardW.difficulty = 5/2 ∧ cardW.easeFactor = 5/2) ∧
      (reviewedCard cardW 5 0).difficulty = (reviewedCard cardW 5 0).easeFactor := by
  constructor
  · exact difficulty_mirrors_easeFactor.1 [] reqW 5 0 cardW [cardW] rfl
  · exact difficulty_mirrors_easeFactor.2 [cardW] 5 5 0 (reviewedCard cardW 5 0)
      (by rw [reviewFlashcard_ok_eq [cardW] 5 5 0 cardW (by decide) rfl])

end SwipeLearn
